import Mathlib

/-!
Shallow embedding of `gpsdio_vector_driver/core.py` (class `Vector`).

Python strings are modelled as `List Char`; Python values that flow through
messages are modelled by `PyVal` (with `vnone` for Python `None`, covering
both an absent key and an explicit null, since `dict.get` returns `None` in
both cases).  The ordered field schema (an `OrderedDict` in the source) is an
association list with unique keys; `odUpdate` is `OrderedDict.__setitem__`
(overwrite in place when the key is present, append otherwise).  I/O actions
performed against the fiona layer are recorded as an `Event` trace; a failing
line write inside `close` is modelled by the `lineWriteFails` flag.
-/

set_option autoImplicit false

deriving instance DecidableEq for Except

/-- A Python string, modelled as its list of characters. -/
abbrev PyStr := List Char

/-- A Python value as it appears in a message mapping. -/
inductive PyVal where
  | vnone
  | vint (n : Int)
  | vstr (s : PyStr)
deriving DecidableEq

/-- The Python exception kinds raised by the driver code paths we model. -/
inductive PyErr where
  | typeError
  | valueError
  | ioError
deriving DecidableEq

/-- Python `s.split(c)` for a one-character separator: keeps empty tokens and
returns `[""]` on the empty string, exactly as `str.split` with an explicit
separator does. -/
def pySplit (c : Char) : PyStr → List PyStr
  | [] => [[]]
  | ch :: rest =>
    if ch = c then [] :: pySplit c rest
    else
      match pySplit c rest with
      | [] => [[ch]]
      | t :: ts => (ch :: t) :: ts

/-- Python `s.split(c, 1)`: split on the first occurrence of `c` only.
`none` models the case where the separator is absent, in which source code
`name, definition = d.split(c, 1)` raises `ValueError` on unpacking. -/
def splitOnce (c : Char) : PyStr → Option (PyStr × PyStr)
  | [] => none
  | ch :: rest =>
    if ch = c then some ([], rest)
    else (splitOnce c rest).map (fun p => (ch :: p.1, p.2))

/-- Join a list of strings with a one-character separator, the inverse
direction of `pySplit` used to build a comma-delimited field spec. -/
def joinWith (c : Char) : List PyStr → PyStr
  | [] => []
  | [t] => t
  | t :: r :: ts => t ++ c :: joinWith c (r :: ts)

/-- The keys of an association list, in order. -/
def keysOf {α : Type} (l : List (PyStr × α)) : List PyStr := l.map Prod.fst

/-- `OrderedDict.__setitem__`: overwrite the value in place when the key is
already present, append the pair at the end otherwise. -/
def odUpdate : List (PyStr × PyStr) → PyStr → PyStr → List (PyStr × PyStr)
  | [], k, v => [(k, v)]
  | p :: rest, k, v => if p.1 = k then (k, v) :: rest else p :: odUpdate rest k v

/-- `properties.update(**fields)`: apply `odUpdate` for each caller pair in
order (CPython 3.7+ keyword-argument order is the mapping order). -/
def updateAll (props : List (PyStr × PyStr)) : List (PyStr × PyStr) → List (PyStr × PyStr)
  | [] => props
  | p :: rest => updateAll (odUpdate props p.1 p.2) rest

/-- The list branch of the field-spec resolver: for each token `d`, run
`name, definition = d.split(':', 1)` and set `properties[name] = definition`;
a token with no colon raises `ValueError`. -/
def applyTokens (props : List (PyStr × PyStr)) : List PyStr → Except PyErr (List (PyStr × PyStr))
  | [] => .ok props
  | d :: rest =>
    match splitOnce ':' d with
    | some nd => applyTokens (odUpdate props nd.1 nd.2) rest
    | none => .error .valueError

/-- Association-list lookup, returning the value at the first matching key. -/
def olookup {α : Type} : List (PyStr × α) → PyStr → Option α
  | [], _ => none
  | p :: rest, k => if p.1 = k then some p.2 else olookup rest k

/-- Python `msg.get(k)`: the stored value when the key is present, `None`
otherwise. -/
def pyGet (msg : List (PyStr × PyVal)) (k : PyStr) : PyVal :=
  match olookup msg k with
  | some v => v
  | none => .vnone

/-- The dynamic type of the `fields` driver option: `None`, a string, a
list/tuple of strings, a mapping, or any other Python object. -/
inductive Fields where
  | fnone
  | fstring (s : PyStr)
  | flist (l : List PyStr)
  | fmapping (m : List (PyStr × PyStr))
  | fother
deriving DecidableEq

namespace VectorDriver

/-- `Vector.default_fields` from the source. -/
def default_fields : List (PyStr × PyStr) :=
  [("mmsi".toList, "int:30".toList),
   ("timestamp".toList, "str:40".toList),
   ("course".toList, "float:12.1".toList),
   ("speed".toList, "float:10.1".toList),
   ("heading".toList, "int:7".toList)]

/-- The field-schema resolution performed by `Vector.__init__`: copy the
defaults; a string is split on commas into a list; a mapping is merged with
`update(**fields)`; a list/tuple is folded with `split(':', 1)` per token;
anything else leaves the defaults untouched. -/
def resolveFields (fields : Fields) : Except PyErr (List (PyStr × PyStr)) :=
  let fields2 := match fields with
    | .fstring s => Fields.flist (pySplit ',' s)
    | f => f
  match fields2 with
  | .fmapping m => .ok (updateAll default_fields m)
  | .flist l => applyTokens default_fields l
  | _ => .ok default_fields

/-- The mutable state of a `Vector` instance that the claims depend on:
the resolved point schema, `self._line`, and `self._line_coords`. -/
structure State where
  schema : List (PyStr × PyStr)
  line : Option PyStr
  line_coords : List (PyVal × PyVal)
deriving DecidableEq

/-- A point or line geometry as written to fiona. -/
inductive Geometry where
  | point (coords : PyVal × PyVal)
  | lineString (coords : List (PyVal × PyVal))
deriving DecidableEq

/-- A GeoJSON-style feature as written to fiona. -/
structure Feature where
  geometry : Geometry
  properties : List (PyStr × PyVal)
deriving DecidableEq

/-- Observable I/O actions against the fiona layer. -/
inductive Event where
  | openPointStream (dest : PyStr) (schema : List (PyStr × PyStr))
  | closePointStream
  | openLineDest (dest : PyStr) (mode : PyStr)
  | writeLineFeature (feat : Feature)
  | closeLineDest
deriving DecidableEq

/-- Truthiness of `self._line` as tested by `if self._line:`. `None` and the
empty string are falsy; a non-empty string is truthy. -/
def lineEnabled : Option PyStr → Bool
  | none => false
  | some s => !s.isEmpty

/-- `Vector.__init__`: first the type check on `f`, then field resolution
(which can raise `ValueError`), and only then is the point stream opened.
The trace records the `fio.open` call with the resolved schema. -/
def init (f : PyVal) (line : Option PyStr) (fields : Fields) :
    List Event × Except PyErr State :=
  match f with
  | .vstr dest =>
    match resolveFields fields with
    | .ok props => ([.openPointStream dest props], .ok ⟨props, line, []⟩)
    | .error e => ([], .error e)
  | _ => ([], .error .typeError)

/-- The key `lon`. -/
def lonKey : PyStr := "lon".toList

/-- The key `lat`. -/
def latKey : PyStr := "lat".toList

/-- `Vector.write`: emit a point feature when both coordinates are non-null,
and append `(x, y)` to the accumulator when line tracking is enabled.  The
returned `Option Feature` is what is forwarded to the point stream. -/
def write (st : State) (msg : List (PyStr × PyVal)) : Option Feature × State :=
  let x := pyGet msg lonKey
  let y := pyGet msg latKey
  let out : Option Feature :=
    if x ≠ PyVal.vnone ∧ y ≠ PyVal.vnone then
      some ⟨.point (x, y), st.schema.map (fun p => (p.1, pyGet msg p.1))⟩
    else none
  let coords :=
    if lineEnabled st.line then st.line_coords ++ [(x, y)] else st.line_coords
  (out, { st with line_coords := coords })

/-- `Vector.close`: close the point stream; when line tracking is enabled,
open the line destination in write mode, write the single line feature and
close the destination (the `with` block closes it even when the write
raises); finally reset the accumulator — a statement that is skipped when
the line write raised, because the exception propagates out of `close`.  An
`Except.error` result carries the exception together with the state of the
object after the failed call. -/
def close (st : State) (lineWriteFails : Bool) :
    List Event × Except (PyErr × State) State :=
  if lineEnabled st.line then
    let dest := st.line.getD []
    if lineWriteFails then
      ([.closePointStream, .openLineDest dest ("w".toList), .closeLineDest],
       .error (.ioError, st))
    else
      ([.closePointStream, .openLineDest dest ("w".toList),
        .writeLineFeature ⟨.lineString st.line_coords, []⟩, .closeLineDest],
       .ok { st with line_coords := [] })
  else
    ([.closePointStream], .ok { st with line_coords := [] })

/-- The accumulator contents after `close`, on either outcome: the state the
object is left in whether or not the call raised. -/
def finalCoords (r : List Event × Except (PyErr × State) State) : List (PyVal × PyVal) :=
  match r.2 with
  | .ok s => s.line_coords
  | .error p => p.2.line_coords

/-- A field spec (string or list shape) containing a token with no colon
separator. -/
def malformedToken : Fields → Prop
  | .fstring s => ∃ d ∈ pySplit ',' s, splitOnce ':' d = none
  | .flist l => ∃ d ∈ l, splitOnce ':' d = none
  | _ => False

/-- The token `name ++ ":" ++ definition` for one override pair. -/
def mkToken (p : PyStr × PyStr) : PyStr := p.1 ++ ':' :: p.2

end VectorDriver

open VectorDriver

/-! ### Lemmas about tokenisation -/

theorem splitOnce_mkToken (a b : PyStr) (h : ':' ∉ a) :
    splitOnce ':' (a ++ ':' :: b) = some (a, b) := by
  induction a with
  | nil => simp [splitOnce]
  | cons ch a ih =>
    have hch : ¬ ch = ':' := fun e => h (e ▸ List.mem_cons_self ch a)
    have ha : ':' ∉ a := fun hm => h (List.mem_cons_of_mem ch hm)
    simp [splitOnce, hch, ih ha]

theorem pySplit_no_sep {c : Char} {t : PyStr} (h : c ∉ t) : pySplit c t = [t] := by
  induction t with
  | nil => rfl
  | cons ch t ih =>
    have hch : ¬ ch = c := fun e => h (e ▸ List.mem_cons_self ch t)
    have ht : c ∉ t := fun hm => h (List.mem_cons_of_mem ch hm)
    simp [pySplit, hch, ih ht]

theorem pySplit_append {c : Char} {t : PyStr} (r : PyStr) (h : c ∉ t) :
    pySplit c (t ++ c :: r) = t :: pySplit c r := by
  induction t with
  | nil => simp [pySplit]
  | cons ch t ih =>
    have hch : ¬ ch = c := fun e => h (e ▸ List.mem_cons_self ch t)
    have ht : c ∉ t := fun hm => h (List.mem_cons_of_mem ch hm)
    simp [pySplit, hch, ih ht]

theorem pySplit_joinWith (c : Char) :
    ∀ ts : List PyStr, ts ≠ [] → (∀ t ∈ ts, c ∉ t) →
      pySplit c (joinWith c ts) = ts
  | [], hne, _ => absurd rfl hne
  | [t], _, h => by
    simp [joinWith, pySplit_no_sep (h t (List.mem_singleton.2 rfl))]
  | t :: r :: ts, _, h => by
    rw [joinWith, pySplit_append _ (h t (List.mem_cons_self t (r :: ts))),
      pySplit_joinWith c (r :: ts) (by simp)
        (fun x hx => h x (List.mem_cons_of_mem t hx))]

/-! ### Lemmas about the schema merge -/

theorem applyTokens_mkTokens :
    ∀ (pairs : List (PyStr × PyStr)) (props : List (PyStr × PyStr)),
      (∀ p ∈ pairs, ':' ∉ p.1) →
      applyTokens props (pairs.map mkToken) = .ok (updateAll props pairs)
  | [], _, _ => rfl
  | p :: rest, props, h => by
    have h1 : ':' ∉ p.1 := (h p (List.mem_cons_self p rest))
    have hs : splitOnce ':' (VectorDriver.mkToken p) = some (p.1, p.2) :=
      splitOnce_mkToken p.1 p.2 h1
    have ih := applyTokens_mkTokens rest (odUpdate props p.1 p.2)
      (fun q hq => h q (List.mem_cons_of_mem p hq))
    simp only [List.map_cons, applyTokens, hs, updateAll]
    exact ih

theorem applyTokens_malformed :
    ∀ (l : List PyStr) (props : List (PyStr × PyStr)),
      (∃ d ∈ l, splitOnce ':' d = none) →
      applyTokens props l = .error .valueError
  | [], _, h => absurd h (by simp)
  | d :: rest, props, h => by
    cases hd : splitOnce ':' d with
    | none => simp [applyTokens, hd]
    | some nd =>
      have hrest : ∃ e ∈ rest, splitOnce ':' e = none := by
        rcases h with ⟨e, he, hne⟩
        rcases List.mem_cons.1 he with h1 | h2
        · rw [h1] at hne; rw [hd] at hne; cases hne
        · exact ⟨e, h2, hne⟩
      simp [applyTokens, hd,
        applyTokens_malformed rest (odUpdate props nd.1 nd.2) hrest]

/-! ### Lemmas about ordered-dictionary update -/

@[simp] theorem keysOf_nil {α : Type} : keysOf ([] : List (PyStr × α)) = [] := rfl

@[simp] theorem keysOf_cons {α : Type} (p : PyStr × α) (l : List (PyStr × α)) :
    keysOf (p :: l) = p.1 :: keysOf l := rfl

theorem olookup_odUpdate_self :
    ∀ (props : List (PyStr × PyStr)) (k v : PyStr),
      olookup (odUpdate props k v) k = some v
  | [], k, v => by simp [odUpdate, olookup]
  | p :: rest, k, v => by
    by_cases hp : p.1 = k
    · simp [odUpdate, hp, olookup]
    · simp [odUpdate, hp, olookup, olookup_odUpdate_self rest k v]

theorem olookup_odUpdate_ne :
    ∀ (props : List (PyStr × PyStr)) (k v k' : PyStr), k' ≠ k →
      olookup (odUpdate props k v) k' = olookup props k'
  | [], k, v, k', h => by simp [odUpdate, olookup, h.symm]
  | p :: rest, k, v, k', h => by
    by_cases hp : p.1 = k
    · simp [odUpdate, hp, olookup, h, h.symm]
    · by_cases hpk : p.1 = k' <;>
        simp [odUpdate, hp, olookup, hpk, h, olookup_odUpdate_ne rest k v k' h]

theorem keysOf_odUpdate_mem :
    ∀ (props : List (PyStr × PyStr)) (k v : PyStr), k ∈ keysOf props →
      keysOf (odUpdate props k v) = keysOf props
  | [], _, _, h => absurd h (by simp)
  | p :: rest, k, v, h => by
    by_cases hp : p.1 = k
    · simp [odUpdate, hp]
    · have hk : k ∈ keysOf rest := by
        rcases List.mem_cons.1 (by simpa using h) with h1 | h2
        · exact absurd h1.symm hp
        · exact h2
      simp [odUpdate, hp, keysOf_odUpdate_mem rest k v hk]

theorem keysOf_odUpdate_notmem :
    ∀ (props : List (PyStr × PyStr)) (k v : PyStr), k ∉ keysOf props →
      keysOf (odUpdate props k v) = keysOf props ++ [k]
  | [], k, v, _ => by simp [odUpdate]
  | p :: rest, k, v, h => by
    have h2 : ¬ (k = p.1 ∨ k ∈ keysOf rest) := by
      intro hor
      exact h (by simpa using List.mem_cons.2 hor)
    have hp : ¬ p.1 = k := fun e => h2 (Or.inl e.symm)
    have hk : k ∉ keysOf rest := fun hm => h2 (Or.inr hm)
    simp [odUpdate, hp, keysOf_odUpdate_notmem rest k v hk]

theorem keysOf_updateAll :
    ∀ (m props : List (PyStr × PyStr)), (keysOf m).Nodup →
      keysOf (updateAll props m) =
        keysOf props ++ (keysOf m).filter (fun k => decide (k ∉ keysOf props))
  | [], props, _ => by simp [updateAll]
  | (k, v) :: rest, props, hnd => by
    have hnd2 : k ∉ keysOf rest ∧ (keysOf rest).Nodup := by
      simpa using hnd
    by_cases hk : k ∈ keysOf props
    · rw [updateAll, keysOf_updateAll rest _ hnd2.2, keysOf_odUpdate_mem props k v hk]
      simp [List.filter_cons, hk]
    · rw [updateAll, keysOf_updateAll rest _ hnd2.2, keysOf_odUpdate_notmem props k v hk]
      have hfil : (keysOf rest).filter (fun x => decide (x ∉ keysOf props ++ [k]))
          = (keysOf rest).filter (fun x => decide (x ∉ keysOf props)) := by
        apply List.filter_congr
        intro x hx
        have hxk : ¬ x = k := fun e => hnd2.1 (e ▸ hx)
        simp [hxk]
      simp only [keysOf_cons, List.filter_cons, hk, hfil]
      simp [List.append_assoc]
  termination_by m _ _ => m.length

theorem olookup_updateAll_notmem :
    ∀ (m props : List (PyStr × PyStr)) (k : PyStr), k ∉ keysOf m →
      olookup (updateAll props m) k = olookup props k
  | [], _, _, _ => rfl
  | (k2, v2) :: rest, props, k, h => by
    have h2 : ¬ (k = k2 ∨ k ∈ keysOf rest) := by
      intro hor
      exact h (by simpa using List.mem_cons.2 hor)
    have h1 : k ≠ k2 := fun e => h2 (Or.inl e)
    have h3 : k ∉ keysOf rest := fun hm => h2 (Or.inr hm)
    rw [updateAll, olookup_updateAll_notmem rest _ k h3,
      olookup_odUpdate_ne props k2 v2 k h1]

theorem olookup_updateAll_mem :
    ∀ (m props : List (PyStr × PyStr)) (k v : PyStr),
      (keysOf m).Nodup → (k, v) ∈ m →
      olookup (updateAll props m) k = some v
  | [], _, _, _, _, hm => absurd hm (by simp)
  | (k2, v2) :: rest, props, k, v, hnd, hm => by
    have hnd2 : k2 ∉ keysOf rest ∧ (keysOf rest).Nodup := by
      simpa using hnd
    rcases List.mem_cons.1 hm with h1 | h2
    · have hk : k = k2 := congrArg Prod.fst h1
      have hv : v = v2 := congrArg Prod.snd h1
      rw [updateAll, hk, hv, olookup_updateAll_notmem rest _ k2 hnd2.1,
        olookup_odUpdate_self]
    · rw [updateAll]
      exact olookup_updateAll_mem rest _ k v hnd2.2 h2

/-! ### Claims -/

/-- Claim C9: resolving with `fields = None` (the option's default) yields
exactly the default schema `mmsi:int:30, timestamp:str:40, course:float:12.1,
speed:float:10.1, heading:int:7`, in that key order, nothing added or
removed. -/
theorem C9_default_schema :
    resolveFields .fnone = .ok VectorDriver.default_fields
    ∧ VectorDriver.default_fields =
      [("mmsi".toList, "int:30".toList),
       ("timestamp".toList, "str:40".toList),
       ("course".toList, "float:12.1".toList),
       ("speed".toList, "float:10.1".toList),
       ("heading".toList, "int:7".toList)] :=
  ⟨rfl, rfl⟩

/-- Claim C1, counterexample: constructing with a `fields` value that is not a
string, not a sequence, not a mapping and not `None` does not raise a type
error; the call succeeds, silently falls back to the default schema, and opens
the point stream with it. -/
theorem C1_counterexample :
    (VectorDriver.init (.vstr ("out.shp".toList)) none .fother).2
      = .ok ⟨VectorDriver.default_fields, none, []⟩
    ∧ (VectorDriver.init (.vstr ("out.shp".toList)) none .fother).1
      = [.openPointStream ("out.shp".toList) VectorDriver.default_fields] :=
  ⟨rfl, rfl⟩

/-- Claim C1, amended: for every `fields` value that is not a string, not a
sequence, not a mapping and not `None`, construction raises no error at all:
the unrecognised value is silently ignored and the point stream is opened
with the default schema. -/
theorem C1_amended_silent_default (dest : PyStr) (line : Option PyStr) :
    VectorDriver.init (.vstr dest) line .fother
      = ([.openPointStream dest VectorDriver.default_fields],
         .ok ⟨VectorDriver.default_fields, line, []⟩) :=
  rfl

/-- Claim C10: when the line destination is the empty string (present but
falsy), the line subsystem is inert exactly as with no line destination:
`lineEnabled` is false, `write` forwards the same point feature and never
appends to the accumulator, and `close` emits only the point-stream close
event, creating no line file. -/
theorem C10_empty_line_inert (schema : List (PyStr × PyStr))
    (coords : List (PyVal × PyVal)) (msg : List (PyStr × PyVal)) (fails : Bool) :
    lineEnabled (some ([] : PyStr)) = false
    ∧ (write ⟨schema, some [], coords⟩ msg).1 = (write ⟨schema, none, coords⟩ msg).1
    ∧ (write ⟨schema, some [], coords⟩ msg).2.line_coords = coords
    ∧ (write ⟨schema, none, coords⟩ msg).2.line_coords = coords
    ∧ (close ⟨schema, some [], coords⟩ fails).1 = [.closePointStream]
    ∧ (close ⟨schema, none, coords⟩ fails).1 = [.closePointStream]
    ∧ (close ⟨schema, some [], coords⟩ fails).2 = .ok ⟨schema, some [], []⟩ :=
  ⟨rfl, rfl, rfl, rfl, rfl, rfl, rfl⟩

/-- Claim C3, counterexample: when the line write inside `close` fails, the
accumulator is not reset — after the failing call the object still holds the
accumulated coordinate, so the claim that the accumulator is empty after any
`close` (including a failing line write) is false. -/
theorem C3_counterexample :
    finalCoords (close ⟨VectorDriver.default_fields, some ("line.shp".toList),
        [(.vint 0, .vint 0)]⟩ true)
      = [(.vint 0, .vint 0)]
    ∧ ([((PyVal.vint 0 : PyVal), (PyVal.vint 0 : PyVal))] : List (PyVal × PyVal))
        ≠ [] :=
  ⟨rfl, by decide⟩

/-- Claim C3, amended: after any call to `close` that returns normally the
accumulator is empty, regardless of whether line tracking was enabled; when
the line write fails, `close` propagates the error and leaves the accumulator
unchanged. -/
theorem C3_amended_reset (st : State) (fails : Bool) :
    (∀ st2 : State, (close st fails).2 = .ok st2 → st2.line_coords = [])
    ∧ (∀ (e : PyErr) (st2 : State), (close st fails).2 = .error (e, st2) →
        st2.line_coords = st.line_coords) := by
  unfold close
  by_cases hl : lineEnabled st.line
  · cases fails <;> simp [hl]
  · simp [hl]

/-- Witness for C3 (amended), at a state holding one accumulated coordinate
with line tracking enabled and a successful line write. -/
theorem C3_amended_witness :
    (⟨VectorDriver.default_fields, some ("line.shp".toList), []⟩ : State).line_coords
      = ([] : List (PyVal × PyVal)) :=
  (C3_amended_reset
      ⟨VectorDriver.default_fields, some ("line.shp".toList), [(.vint 0, .vint 0)]⟩
      false).1
    ⟨VectorDriver.default_fields, some ("line.shp".toList), []⟩ (by decide)

/-- Claim C2: when `lon` or `lat` is missing or null, `write` emits no point
feature; independently, whenever line tracking is enabled, every call to
`write` appends exactly the pair `(x, y)` — null components included — to the
accumulator. -/
theorem C2_skip_point_still_append (st : State) (msg : List (PyStr × PyVal)) :
    ((pyGet msg lonKey = PyVal.vnone ∨ pyGet msg latKey = PyVal.vnone) →
      (write st msg).1 = none)
    ∧ (lineEnabled st.line = true →
        (write st msg).2.line_coords
          = st.line_coords ++ [(pyGet msg lonKey, pyGet msg latKey)]) := by
  constructor
  · intro h
    have hcond : ¬ (pyGet msg lonKey ≠ PyVal.vnone ∧ pyGet msg latKey ≠ PyVal.vnone) := by
      rcases h with h | h <;> simp [h]
    simp [write, hcond]
  · intro h
    simp [write, h]

/-- Witness for C2: a message with `lon` missing yields no point feature but
still appends `(None, lat)` to the accumulator. -/
theorem C2_witness :
    (write ⟨VectorDriver.default_fields, some ("line.shp".toList), []⟩
        [("lat".toList, PyVal.vint 2)]).1 = none
    ∧ (write ⟨VectorDriver.default_fields, some ("line.shp".toList), []⟩
        [("lat".toList, PyVal.vint 2)]).2.line_coords
        = [(PyVal.vnone, PyVal.vint 2)] := by
  refine ⟨(C2_skip_point_still_append _ _).1 (Or.inl (by decide)), ?_⟩
  have h := (C2_skip_point_still_append
    (⟨VectorDriver.default_fields, some ("line.shp".toList), []⟩ : State)
    [("lat".toList, PyVal.vint 2)]).2 (by decide)
  exact h.trans (by decide)

/-- Claim C6: when both coordinates are present and non-null, `write` forwards
exactly one point feature with geometry `Point (lon, lat)` and a properties
mapping holding, for every schema field in order, the message's value (null
when absent); message keys outside the schema do not appear. -/
theorem C6_point_feature (st : State) (msg : List (PyStr × PyVal))
    (hx : pyGet msg lonKey ≠ PyVal.vnone) (hy : pyGet msg latKey ≠ PyVal.vnone) :
    (write st msg).1
      = some ⟨.point (pyGet msg lonKey, pyGet msg latKey),
          st.schema.map (fun p => (p.1, pyGet msg p.1))⟩ := by
  simp [write, hx, hy]

/-- Witness for C6: `lon=1, lat=2, heading=90` against the default schema
produces the point `(1, 2)` with `heading=90` and nulls for the absent
fields. -/
theorem C6_witness :
    (write ⟨VectorDriver.default_fields, none, []⟩
        [("lon".toList, PyVal.vint 1), ("lat".toList, PyVal.vint 2),
         ("heading".toList, PyVal.vint 90)]).1
      = some ⟨.point (PyVal.vint 1, PyVal.vint 2),
          [("mmsi".toList, PyVal.vnone),
           ("timestamp".toList, PyVal.vnone),
           ("course".toList, PyVal.vnone),
           ("speed".toList, PyVal.vnone),
           ("heading".toList, PyVal.vint 90)]⟩ := by
  have h := C6_point_feature ⟨VectorDriver.default_fields, none, []⟩
    [("lon".toList, PyVal.vint 1), ("lat".toList, PyVal.vint 2),
     ("heading".toList, PyVal.vint 90)] (by decide) (by decide)
  exact h.trans (by decide)

/-- Claim C5: with line tracking enabled, `close` first closes the point
stream, then opens the line destination in write mode, writes exactly one
feature with empty properties and a LineString of all accumulated coordinates
in insertion order, and closes the destination — closing it even when the
write fails. -/
theorem C5_close_line_file (st : State) (d : PyStr) (hl : st.line = some d)
    (hd : d ≠ []) :
    (close st false).1
      = [.closePointStream, .openLineDest d ("w".toList),
         .writeLineFeature ⟨.lineString st.line_coords, []⟩, .closeLineDest]
    ∧ (close st false).2 = .ok { st with line_coords := [] }
    ∧ (close st true).1
      = [.closePointStream, .openLineDest d ("w".toList), .closeLineDest] := by
  have he : lineEnabled st.line = true := by
    rw [hl]
    cases d with
    | nil => exact absurd rfl hd
    | cons c cs => rfl
  rw [hl] at he
  refine ⟨?_, ?_, ?_⟩ <;> simp [close, hl, he]

/-- A message carrying integer coordinates `(a, b)`. -/
def coordMsg (a b : Int) : List (PyStr × PyVal) :=
  [("lon".toList, PyVal.vint a), ("lat".toList, PyVal.vint b)]

/-- The state after writing `(0,0), (1,1), (2,2)` with line tracking
enabled. -/
def st3 : State :=
  (write (write (write
    ⟨VectorDriver.default_fields, some ("line.shp".toList), []⟩
    (coordMsg 0 0)).2 (coordMsg 1 1)).2 (coordMsg 2 2)).2

/-- Witness for C5: after writing `(0,0), (1,1), (2,2)`, `close` writes one
feature whose geometry is the ordered sequence of the three coordinates with
empty properties. -/
theorem C5_witness :
    (close st3 false).1
      = [.closePointStream, .openLineDest ("line.shp".toList) ("w".toList),
         .writeLineFeature ⟨.lineString
           [(PyVal.vint 0, PyVal.vint 0), (PyVal.vint 1, PyVal.vint 1),
            (PyVal.vint 2, PyVal.vint 2)], []⟩, .closeLineDest] := by
  have h := (C5_close_line_file st3 ("line.shp".toList) (by decide) (by decide)).1
  exact h.trans (by decide)

/-- Claim C7: a string or list field spec containing a token without a colon
makes construction fail with the parse error, and no output stream is opened
(the event trace is empty). -/
theorem C7_malformed_token_fails (dest : PyStr) (line : Option PyStr)
    (fields : Fields) (h : malformedToken fields) :
    VectorDriver.init (.vstr dest) line fields = ([], .error .valueError) := by
  have hres : resolveFields fields = .error .valueError := by
    cases fields with
    | fstring s =>
      simp only [malformedToken] at h
      exact applyTokens_malformed _ _ h
    | flist l =>
      simp only [malformedToken] at h
      exact applyTokens_malformed _ _ h
    | fnone => exact absurd h (by simp [malformedToken])
    | fmapping m => exact absurd h (by simp [malformedToken])
    | fother => exact absurd h (by simp [malformedToken])
  simp [init, hres]

/-- Witness for C7: the malformed token `heading` (no colon) raises the parse
error before any stream is opened. -/
theorem C7_witness :
    VectorDriver.init (.vstr ("out.shp".toList)) none (.fstring ("heading".toList))
      = ([], .error .valueError) :=
  C7_malformed_token_fails ("out.shp".toList) none (.fstring ("heading".toList))
    ⟨"heading".toList, by decide, by decide⟩

/-- Claim C4: for any non-empty set of overrides expressible in all three
shapes (names colon-free, names and definitions comma-free), the
comma-delimited string, the list of `name:definition` tokens, and the mapping
resolve to exactly the same Field Schema — the defaults merged with the
overrides in order. -/
theorem C4_field_spec_shapes (pairs : List (PyStr × PyStr)) (hne : pairs ≠ [])
    (h : ∀ p ∈ pairs, ':' ∉ p.1 ∧ ',' ∉ p.1 ∧ ',' ∉ p.2) :
    resolveFields (.fstring (joinWith ',' (pairs.map mkToken)))
        = resolveFields (.fmapping pairs)
    ∧ resolveFields (.flist (pairs.map mkToken))
        = resolveFields (.fmapping pairs)
    ∧ resolveFields (.fmapping pairs)
        = .ok (updateAll VectorDriver.default_fields pairs) := by
  have hlist : applyTokens VectorDriver.default_fields (pairs.map mkToken)
      = .ok (updateAll VectorDriver.default_fields pairs) :=
    applyTokens_mkTokens pairs _ (fun p hp => (h p hp).1)
  have hsplit : pySplit ',' (joinWith ',' (pairs.map mkToken)) = pairs.map mkToken := by
    apply pySplit_joinWith
    · intro he
      exact hne (by simpa using he)
    · intro t ht
      rcases List.mem_map.1 ht with ⟨p, hp, rfl⟩
      intro hmem
      rcases h p hp with ⟨_, h2, h3⟩
      simp only [VectorDriver.mkToken] at hmem
      rcases List.mem_append.1 hmem with hm | hm
      · exact h2 hm
      · rcases List.mem_cons.1 hm with hm1 | hm2
        · exact absurd hm1 (by decide)
        · exact h3 hm2
  refine ⟨?_, ?_, rfl⟩
  · show applyTokens VectorDriver.default_fields
      (pySplit ',' (joinWith ',' (pairs.map mkToken))) = _
    rw [hsplit]
    exact hlist
  · exact hlist

/-- Witness for C4: `fields="heading:int:3"`, `fields=["heading:int:3"]` and
`fields={heading: int:3}` all resolve to the defaults with `heading`
overridden to `int:3`. -/
theorem C4_witness :
    resolveFields (.fstring ("heading:int:3".toList))
        = resolveFields (.fmapping [("heading".toList, "int:3".toList)])
    ∧ resolveFields (.flist ["heading:int:3".toList])
        = resolveFields (.fmapping [("heading".toList, "int:3".toList)])
    ∧ resolveFields (.fmapping [("heading".toList, "int:3".toList)])
        = .ok [("mmsi".toList, "int:30".toList),
               ("timestamp".toList, "str:40".toList),
               ("course".toList, "float:12.1".toList),
               ("speed".toList, "float:10.1".toList),
               ("heading".toList, "int:3".toList)] := by
  have h := C4_field_spec_shapes [("heading".toList, "int:3".toList)]
    (by decide) (by decide)
  have harg : joinWith ',' ([("heading".toList, "int:3".toList)].map mkToken)
      = "heading:int:3".toList := by decide
  have harg2 : [("heading".toList, "int:3".toList)].map mkToken
      = ["heading:int:3".toList] := by decide
  rw [harg, harg2] at h
  exact ⟨h.1, h.2.1, h.2.2.trans (by decide)⟩

/-- Claim C8: for every mapping (distinct keys) passed as `fields`, the
resolved schema is the defaults merged with the mapping: caller-supplied
values win on shared keys, the default key order is preserved for all default
keys, and keys new to the defaults are appended after them in mapping
order. -/
theorem C8_mapping_merge (m : List (PyStr × PyStr)) (hnd : (keysOf m).Nodup) :
    ∃ props, resolveFields (.fmapping m) = .ok props
      ∧ keysOf props = keysOf VectorDriver.default_fields
          ++ (keysOf m).filter (fun k => decide (k ∉ keysOf VectorDriver.default_fields))
      ∧ (∀ k v : PyStr, (k, v) ∈ m → olookup props k = some v)
      ∧ (∀ k : PyStr, k ∉ keysOf m →
          olookup props k = olookup VectorDriver.default_fields k) :=
  ⟨updateAll VectorDriver.default_fields m, rfl,
    keysOf_updateAll m VectorDriver.default_fields hnd,
    fun k v hm => olookup_updateAll_mem m VectorDriver.default_fields k v hnd hm,
    fun k hk => olookup_updateAll_notmem m VectorDriver.default_fields k hk⟩

/-- Witness for C8: the mapping `{heading: int:3, width: float:8}` merges into
the defaults with `heading` overridden in place and `width` appended. -/
theorem C8_witness :
    (keysOf [("heading".toList, "int:3".toList),
             ("width".toList, "float:8".toList)]).Nodup
    ∧ ∃ props,
        resolveFields (.fmapping [("heading".toList, "int:3".toList),
            ("width".toList, "float:8".toList)]) = .ok props
        ∧ keysOf props = keysOf VectorDriver.default_fields
            ++ (keysOf [("heading".toList, "int:3".toList),
                ("width".toList, "float:8".toList)]).filter
                (fun k => decide (k ∉ keysOf VectorDriver.default_fields))
        ∧ (∀ k v : PyStr,
            (k, v) ∈ [("heading".toList, "int:3".toList),
                      ("width".toList, "float:8".toList)] →
            olookup props k = some v)
        ∧ (∀ k : PyStr,
            k ∉ keysOf [("heading".toList, "int:3".toList),
                        ("width".toList, "float:8".toList)] →
            olookup props k = olookup VectorDriver.default_fields k) :=
  ⟨by decide,
   C8_mapping_merge [("heading".toList, "int:3".toList),
     ("width".toList, "float:8".toList)] (by decide)⟩
